import Mathlib

/-
Verification of `superduperdb/components/graph_model.py`.

The file defines a shallow embedding of the two operations of `GraphModel`:
`add_node`, which registers a predictor together with its input edges in the
insertion-ordered dictionary `self._nodes` (keyed by `id(predictor)`), and
`predict`, which walks the registered nodes in insertion order, scopes the
base selection to each declared input's output, accumulates dependency
handles, invokes each predictor and returns the last output.

Python's reference identity `id(p)` is modelled by a natural-number field
`pid`; the insertion-ordered dictionary `self._nodes` is modelled by an
association list in insertion order; raising an exception is modelled by an
error value that carries the unchanged registry state, mirroring the fact
that the source raises before any mutation.  Predictors are external
collaborators: a predictor's `predict` method is modelled by an environment
function from the full argument record of the call to a fallible result,
and the embedded `GraphModel.predict` additionally returns the list of
argument records of the predictor invocations it performed, in order, which
is the observable interaction with the external predictor capability.
-/

/-- Raw data batch `X` passed to `predict` (opaque to the graph layer). -/
abbrev RawData := Nat

/-- A predictor result / asynchronous job handle (opaque to the graph layer). -/
abbrev Value := Nat

/-- An external predictor, identified by Python object identity `id(p)`
(field `pid`) and carrying the `identifier` attribute that `predict` uses
when scoping a selection with `select.outputs(X, i.identifier)`. -/
structure Predictor where
  pid : Nat
  identifier : String
deriving DecidableEq, Repr

/-- A `CompoundSelect` as the graph layer observes it: an opaque base value
plus the `outputs` scoping method, which returns a new selection (the source
selection is not mutated), modelled as a free term constructor. -/
inductive Selection where
  | base (tag : Nat)
  | outputs (s : Selection) (X : RawData) (identifier : String)
deriving DecidableEq, Repr

/-- The `_Node` dataclass: a predictor, its declared inputs, and the
resolved `accepts_data` flag. -/
structure Node where
  predictor : Predictor
  inputs : List Predictor
  accepts_data : Bool
deriving DecidableEq, Repr

/-- The `GraphModel`'s only state relevant here: the insertion-ordered
dictionary `self._nodes : Dict[int, _Node]` keyed by `id(predictor)`. -/
structure GraphModel where
  nodes : List (Nat × Node)
deriving DecidableEq, Repr

/-- `dict.get` on an insertion-ordered dictionary modelled as an
association list (used both for `self._nodes.get(id(p))` and for the
output cache `_outputs`). -/
def alistGet {α : Type} (k : Nat) : List (Nat × α) → Option α
  | [] => none
  | (k', v) :: rest => if k = k' then some v else alistGet k rest

/-- `d[k] = v` on a Python dictionary: overwrite in place if the key is
present, append otherwise. -/
def alistSet {α : Type} (k : Nat) (v : α) : List (Nat × α) → List (Nat × α)
  | [] => [(k, v)]
  | (k', v') :: rest =>
      if k' = k then (k, v) :: rest else (k', v') :: alistSet k v rest

/-- The fresh `GraphModel` right after `__post_init__`: `self._nodes = {}`. -/
def GraphModel.empty : GraphModel := ⟨[]⟩

/-- The `accepts_data` argument of `add_node`: either the literal `"auto"`
or an explicit boolean. -/
inductive AcceptsData where
  | auto
  | explicit (b : Bool)
deriving DecidableEq, Repr

/-- The two `ValueError`s `add_node` can raise, distinguished by message:
`"Predictor already in graph: ..."` and `"Input not in graph: ..."`. -/
inductive GraphError where
  | duplicateNode (p : Predictor)
  | unknownInput (p : Predictor)
deriving DecidableEq, Repr

/-- The line `if accepts_data == "auto": accepts_data = not inputs` of
`add_node`: `not inputs` is `True` exactly when the sequence is empty. -/
def resolveAcceptsData (accepts_data : AcceptsData) (inputs : List Predictor) :
    Bool :=
  match accepts_data with
  | .auto => inputs.isEmpty
  | .explicit b => b

/-- `GraphModel.add_node(predictor, inputs, accepts_data)`.  The result is
the registry state after the call together with the raised error, if any:
the source raises before any mutation of `self._nodes`, so on error the
returned state is the unchanged input registry.  On success the source
returns `self`, i.e. the whole updated graph, which is the first component
here. -/
def GraphModel.add_node (g : GraphModel) (predictor : Predictor)
    (inputs : List Predictor) (accepts_data : AcceptsData) :
    GraphModel × Option GraphError :=
  if (alistGet predictor.pid g.nodes).isSome then
    (g, some (.duplicateNode predictor))
  else
    match inputs.find? (fun i => (alistGet i.pid g.nodes).isNone) with
    | some i => (g, some (.unknownInput i))
    | none =>
        (⟨g.nodes ++
            [(predictor.pid,
              ⟨predictor, inputs, resolveAcceptsData accepts_data inputs⟩)]⟩,
         none)

/-- The full argument record of one call `node.predictor.predict(X=X, db=db,
select=node_select, ids=ids, max_chunk_size=max_chunk_size,
dependencies=node_deps, **kwargs)`. -/
structure CallRecord where
  pid : Nat
  X : RawData
  db : Option Nat
  select : Option Selection
  ids : Option (List String)
  max_chunk_size : Option Nat
  dependencies : List Value
  kwargs : Nat
deriving DecidableEq, Repr

/-- Behaviour of the external predictors: maps the argument record of an
invocation to the value it returns, or to the error it raises. -/
abbrev Env := CallRecord → Except Nat Value

/-- Run-time errors of `GraphModel.predict`: an error raised by a predictor
invocation (propagated unchanged), the `AttributeError` from
`node_select.outputs(...)` when `select` is `None`, the `KeyError` from
`_outputs[id(i)]`, and the `UnboundLocalError` from `return output` when
the loop body never ran. -/
inductive RErr where
  | predictorError (e : Nat)
  | noneTypeError
  | keyError
  | unboundLocal
deriving DecidableEq, Repr

/-- The inner loop `for i in node.inputs:` of `predict`: starting from
`node_select` and `node_deps = list(dependencies)`, each iteration executes
`node_select = node_select.outputs(X, i.identifier)` — which is an
`AttributeError` when `node_select` is `None` — followed by
`node_deps.append(_outputs[id(i)])` — which is a `KeyError` when the cache
has no entry for `i`. -/
def inputLoop (X : RawData) (cache : List (Nat × Value)) :
    Option Selection → List Value → List Predictor →
    Except RErr (Option Selection × List Value)
  | sel, deps, [] => .ok (sel, deps)
  | sel, deps, i :: rest =>
      match sel with
      | none => .error .noneTypeError
      | some s =>
          match alistGet i.pid cache with
          | none => .error .keyError
          | some v =>
              inputLoop X cache (some (Selection.outputs s X i.identifier))
                (deps ++ [v]) rest

/-- The loop `for node in self._nodes.values():` of `predict`, carrying the
output cache `_outputs` and the current value of the variable `output`
(absent before the first iteration).  Returns the argument records of the
predictor invocations performed, in order, and the overall outcome; a
falling out of the loop reaches `return output`, which is an
`UnboundLocalError` when no iteration ever ran. -/
def predictLoop (env : Env) (X : RawData) (db : Option Nat)
    (select : Option Selection) (ids : Option (List String))
    (max_chunk_size : Option Nat) (dependencies : List Value) (kwargs : Nat)
    (cache : List (Nat × Value)) (last : Option Value) :
    List Node → List CallRecord × Except RErr Value
  | [] =>
      ([], match last with
           | some v => .ok v
           | none => .error .unboundLocal)
  | node :: rest =>
      let node_select := if node.accepts_data then select else select
      match inputLoop X cache node_select dependencies node.inputs with
      | .error e => ([], .error e)
      | .ok (nsel, ndeps) =>
          let r : CallRecord :=
            ⟨node.predictor.pid, X, db, nsel, ids, max_chunk_size, ndeps, kwargs⟩
          match env r with
          | .error e => ([r], .error (.predictorError e))
          | .ok out =>
              let step := predictLoop env X db select ids max_chunk_size
                dependencies kwargs (alistSet node.predictor.pid out cache)
                (some out) rest
              (r :: step.1, step.2)

/-- `GraphModel.predict(X, db, select, ids, max_chunk_size, dependencies,
**kwargs)`: initialises the per-call cache `_outputs = {}` and runs the
node loop over `self._nodes.values()`.  The cache is local to the call and
is not part of the result: it is discarded when the call ends. -/
def GraphModel.predict (g : GraphModel) (env : Env) (X : RawData)
    (db : Option Nat) (select : Option Selection) (ids : Option (List String))
    (max_chunk_size : Option Nat) (dependencies : List Value) (kwargs : Nat) :
    List CallRecord × Except RErr Value :=
  predictLoop env X db select ids max_chunk_size dependencies kwargs [] none
    (g.nodes.map Prod.snd)

/-- Checks that a node list is in a topological order: every node's inputs
appear among the keys of the nodes strictly before it (`seen`). -/
def topoOrderedAux (seen : List Nat) : List (Nat × Node) → Bool
  | [] => true
  | (pid, n) :: rest =>
      n.inputs.all (fun i => decide (i.pid ∈ seen)) &&
        topoOrderedAux (seen ++ [pid]) rest

/-- The insertion order of the registry is a valid topological order: each
node's declared inputs precede it. -/
def GraphModel.topoOrdered (g : GraphModel) : Bool :=
  topoOrderedAux [] g.nodes

/-- The graphs reachable through the public interface: the fresh graph, and
any graph produced by a successful `add_node` call on a reachable graph. -/
inductive Reachable : GraphModel → Prop where
  | empty : Reachable GraphModel.empty
  | step (g : GraphModel) (p : Predictor) (inputs : List Predictor)
      (ad : AcceptsData) : Reachable g → (g.add_node p inputs ad).2 = none →
      Reachable (g.add_node p inputs ad).1

/- Concrete predictors, graphs and environments used to evaluate the
operations on the scenarios from the specification. -/

/-- Predictor `m1` of the three-node scenario. -/
def m1 : Predictor := ⟨1, "m1"⟩

/-- Predictor `m2` of the three-node scenario. -/
def m2 : Predictor := ⟨2, "m2"⟩

/-- Predictor `m3` of the three-node scenario. -/
def m3 : Predictor := ⟨3, "m3"⟩

/-- The scenario graph: `m1` (no inputs), `m2` (inputs `[m1]`,
`accepts_data=True`), `m3` (inputs `[m1, m2]`, `accepts_data=False`). -/
def g3 : GraphModel :=
  (((GraphModel.empty.add_node m1 [] .auto).1.add_node m2 [m1]
      (.explicit true)).1.add_node m3 [m1, m2] (.explicit false)).1

/-- Predictor behaviour for the scenario graph: `m1`, `m2`, `m3` return the
handles `101`, `102`, `103`. -/
def env3 : Env := fun r =>
  match r.pid with
  | 1 => .ok 101
  | 2 => .ok 102
  | 3 => .ok 103
  | _ => .error 0

/-- Predictor `A` of the chain scenario. -/
def pA : Predictor := ⟨11, "A"⟩

/-- Predictor `B` of the chain scenario. -/
def pB : Predictor := ⟨12, "B"⟩

/-- Predictor `C` of the chain scenario. -/
def pC : Predictor := ⟨13, "C"⟩

/-- The chain graph `A → B → C`: each node's only input is the previous
node, all flags resolved by `"auto"`. -/
def gABC : GraphModel :=
  (((GraphModel.empty.add_node pA [] .auto).1.add_node pB [pA]
      .auto).1.add_node pC [pB] .auto).1

/-- Predictor behaviour for the chain graph: `A`, `B`, `C` return the
handles `201`, `202`, `203`. -/
def envABC : Env := fun r =>
  match r.pid with
  | 11 => .ok 201
  | 12 => .ok 202
  | 13 => .ok 203
  | _ => .error 0

/-- Predictor `D` of the failing-predictor scenario. -/
def pD : Predictor := ⟨31, "D"⟩

/-- Predictor `E` of the failing-predictor scenario. -/
def pE : Predictor := ⟨32, "E"⟩

/-- The two-node graph `D → E` for the failing-predictor scenario. -/
def gDE : GraphModel :=
  ((GraphModel.empty.add_node pD [] .auto).1.add_node pE [pD] .auto).1

/-- Predictor behaviour where `D` succeeds with handle `301` and `E` raises
the error `42`. -/
def envDE : Env := fun r =>
  match r.pid with
  | 31 => .ok 301
  | _ => .error 42

/-- The argument records of the two invocations `predict` performs on `gDE`
under `envDE` before the error aborts the traversal. -/
def trDE : List CallRecord :=
  [⟨31, 7, none, some (.base 0), none, none, [], 0⟩,
   ⟨32, 7, none, some ((Selection.base 0).outputs 7 "D"), none, none, [301], 0⟩]

/-- A second starting registry for inserting `m1`, already holding an
unrelated predictor. -/
def gOther : GraphModel :=
  (GraphModel.empty.add_node ⟨5, "other"⟩ [] .auto).1

/-- A predictor never registered in the scenario graphs. -/
def p9 : Predictor := ⟨9, "q"⟩

/- Helper lemmas on association lists and `add_node`. -/

theorem alistGet_append_of_none {α : Type} (k : Nat) (xs ys : List (Nat × α))
    (h : alistGet k xs = none) : alistGet k (xs ++ ys) = alistGet k ys := by
  induction xs with
  | nil => rfl
  | cons kv rest ih =>
      obtain ⟨k', v⟩ := kv
      by_cases hk : k = k'
      · simp [alistGet, hk] at h
      · simp only [alistGet, if_neg hk] at h ⊢
        exact ih h

theorem alistGet_self {α : Type} (k : Nat) (v : α) :
    alistGet k [(k, v)] = some v := by
  simp [alistGet]

theorem alistGet_isSome_iff {α : Type} (k : Nat) (xs : List (Nat × α)) :
    (alistGet k xs).isSome = true ↔ k ∈ xs.map Prod.fst := by
  induction xs with
  | nil => simp [alistGet]
  | cons kv rest ih =>
      obtain ⟨k', v⟩ := kv
      by_cases hk : k = k'
      · simp [alistGet, hk]
      · simp [alistGet, hk, ih]

theorem add_node_ok (g : GraphModel) (p : Predictor) (inputs : List Predictor)
    (ad : AcceptsData) (g' : GraphModel)
    (h : g.add_node p inputs ad = (g', none)) :
    alistGet p.pid g.nodes = none ∧
    (∀ i ∈ inputs, (alistGet i.pid g.nodes).isSome = true) ∧
    g'.nodes = g.nodes ++
      [(p.pid, ⟨p, inputs, resolveAcceptsData ad inputs⟩)] := by
  unfold GraphModel.add_node at h
  split at h
  · simp at h
  next hdup =>
    split at h
    · simp at h
    next hfind =>
      refine ⟨?_, ?_, ?_⟩
      · simpa [Option.isSome_iff_ne_none] using hdup
      · intro i hi
        have hni := List.find?_eq_none.mp hfind i hi
        simpa [Option.isNone_iff_eq_none, Option.isSome_iff_ne_none] using hni
      · have : (⟨g.nodes ++
            [(p.pid, ⟨p, inputs, resolveAcceptsData ad inputs⟩)]⟩ :
              GraphModel) = g' := congrArg Prod.fst h
        rw [← this]

/-- C10: calling `predict` on an empty graph never returns a value: the
node loop body never runs, so the `return output` line reads an unbound
local variable and the call raises `UnboundLocalError` instead of producing
a result. -/
theorem predict_empty_graph_unbound (env : Env) (X : RawData) (db : Option Nat)
    (select : Option Selection) (ids : Option (List String)) (mcs : Option Nat)
    (deps : List Value) (kw : Nat) :
    GraphModel.empty.predict env X db select ids mcs deps kw
      = ([], .error .unboundLocal) := rfl

/-- C1: evaluation of the three-node scenario.  `m1` is invoked with the
base selection `S`, `m2` with `S` scoped to `m1`'s output and the data `D`,
`m3` with `S` scoped to `m1`'s then `m2`'s output, and `m3`'s result is the
overall result — but `m3` is also invoked with the raw data `D = 7` even
though its `accepts_data` flag is `false`: the source passes `X` to every
node unconditionally (its `accepts_data` conditional selects the same
`select` in both branches, with a TODO admitting the empty-select case is
unimplemented), contradicting `add_node`'s own docstring, which says the
original data is only passed when `accepts_data` holds. -/
theorem scenario_m1_m2_m3_eval :
    g3.predict env3 7 none (some (.base 0)) none none [] 0 =
      ([⟨1, 7, none, some (.base 0), none, none, [], 0⟩,
        ⟨2, 7, none, some ((Selection.base 0).outputs 7 "m1"), none, none,
          [101], 0⟩,
        ⟨3, 7, none, some (((Selection.base 0).outputs 7 "m1").outputs 7 "m2"),
          none, none, [101, 102], 0⟩],
       .ok 103)
    ∧ (alistGet 3 g3.nodes).map Node.accepts_data = some false := ⟨rfl, rfl⟩

/-- C4: for every graph, after a successful `add_node` of a predictor `p`,
adding `p` again (whatever the inputs and flag of the second call) fails
with the duplicate-predictor error, and that failing call leaves the
registry unchanged. -/
theorem add_node_duplicate_second_call (g : GraphModel) (p : Predictor)
    (inputs inputs' : List Predictor) (ad ad' : AcceptsData) (g₁ : GraphModel)
    (h : g.add_node p inputs ad = (g₁, none)) :
    g₁.add_node p inputs' ad' = (g₁, some (.duplicateNode p)) := by
  obtain ⟨h1, _h2, h3⟩ := add_node_ok g p inputs ad g₁ h
  have hs : (alistGet p.pid g₁.nodes).isSome = true := by
    rw [h3, alistGet_append_of_none _ _ _ h1, alistGet_self]
    rfl
  unfold GraphModel.add_node
  simp [hs]

/-- Witness for C4 at a concrete input: re-adding the predictor registered
in `gOther` fails with the duplicate error and returns `gOther` unchanged. -/
theorem add_node_duplicate_second_call_witness :
    gOther.add_node ⟨5, "other"⟩ [] .auto
      = (gOther, some (.duplicateNode ⟨5, "other"⟩)) :=
  add_node_duplicate_second_call GraphModel.empty ⟨5, "other"⟩ [] [] .auto
    .auto gOther rfl

/-- C5: a node added with `accepts_data = "auto"` is stored with the flag
resolved to `true` exactly when the declared inputs are empty, and a node
added with an explicit boolean is stored with that boolean unchanged,
regardless of inputs. -/
theorem accepts_data_resolution :
    (∀ (g : GraphModel) (p : Predictor) (inputs : List Predictor)
        (g' : GraphModel), g.add_node p inputs .auto = (g', none) →
        alistGet p.pid g'.nodes = some ⟨p, inputs, inputs.isEmpty⟩) ∧
    (∀ (g : GraphModel) (p : Predictor) (inputs : List Predictor) (b : Bool)
        (g' : GraphModel), g.add_node p inputs (.explicit b) = (g', none) →
        alistGet p.pid g'.nodes = some ⟨p, inputs, b⟩) := by
  constructor
  · intro g p inputs g' h
    obtain ⟨h1, _h2, h3⟩ := add_node_ok g p inputs .auto g' h
    rw [h3, alistGet_append_of_none _ _ _ h1, alistGet_self]
    rfl
  · intro g p inputs b g' h
    obtain ⟨h1, _h2, h3⟩ := add_node_ok g p inputs (.explicit b) g' h
    rw [h3, alistGet_append_of_none _ _ _ h1, alistGet_self]
    rfl

/-- Witness for C5 at concrete inputs: in the scenario graph, `m1` added
with `"auto"` and no inputs is stored with the flag `true`, and `m3` added
with the explicit `false` and inputs `[m1, m2]` is stored with `false`. -/
theorem accepts_data_resolution_witness :
    alistGet 1 ((GraphModel.empty.add_node m1 [] .auto).1).nodes
      = some ⟨m1, [], true⟩ ∧
    alistGet 3 g3.nodes = some ⟨m3, [m1, m2], false⟩ :=
  ⟨accepts_data_resolution.1 GraphModel.empty m1 []
      (GraphModel.empty.add_node m1 [] .auto).1 rfl,
   accepts_data_resolution.2
      (((GraphModel.empty.add_node m1 [] .auto).1).add_node m2 [m1]
        (.explicit true)).1 m3 [m1, m2] false g3 rfl⟩

/-- C6 (counterexample): a successful `add_node` call does not return a
node id or any handle determined by the inserted node: the source returns
`self`, the entire updated registry.  Inserting the very same predictor
`m1` with the same arguments into two different registries succeeds both
times yet returns two different values — each return value is the whole
registry, not an identifier of the inserted node. -/
theorem add_node_returns_registry_not_id :
    (GraphModel.empty.add_node m1 [] .auto).2 = none ∧
    (gOther.add_node m1 [] .auto).2 = none ∧
    (GraphModel.empty.add_node m1 [] .auto).1
      ≠ (gOther.add_node m1 [] .auto).1 := by
  refine ⟨rfl, rfl, ?_⟩
  decide

/-- C6 (amended): every successful `add_node` call returns the updated
graph itself; the node is stored under a fresh stable id (the predictor's
identity, absent from the registry before the call) and is appended to the
registry in insertion order, as the new last key. -/
theorem add_node_appends_with_fresh_id (g : GraphModel) (p : Predictor)
    (inputs : List Predictor) (ad : AcceptsData) (g' : GraphModel)
    (h : g.add_node p inputs ad = (g', none)) :
    alistGet p.pid g.nodes = none ∧
    g'.nodes.map Prod.fst = g.nodes.map Prod.fst ++ [p.pid] ∧
    alistGet p.pid g'.nodes
      = some ⟨p, inputs, resolveAcceptsData ad inputs⟩ := by
  obtain ⟨h1, _h2, h3⟩ := add_node_ok g p inputs ad g' h
  refine ⟨h1, ?_, ?_⟩
  · rw [h3]; simp
  · rw [h3, alistGet_append_of_none _ _ _ h1, alistGet_self]

/-- Witness for the amended C6 at a concrete input: adding `m2` to the
one-node graph holding `m1` keeps `m1`'s key first, appends `m2`'s key, and
stores `m2`'s node under its fresh id. -/
theorem add_node_appends_with_fresh_id_witness :
    alistGet 2 ((GraphModel.empty.add_node m1 [] .auto).1).nodes = none ∧
    (((GraphModel.empty.add_node m1 [] .auto).1.add_node m2 [m1]
        (.explicit true)).1).nodes.map Prod.fst
      = ((GraphModel.empty.add_node m1 [] .auto).1).nodes.map Prod.fst
          ++ [2] ∧
    alistGet 2 (((GraphModel.empty.add_node m1 [] .auto).1.add_node m2 [m1]
        (.explicit true)).1).nodes
      = some ⟨m2, [m1], resolveAcceptsData (.explicit true) [m1]⟩ :=
  add_node_appends_with_fresh_id (GraphModel.empty.add_node m1 [] .auto).1
    m2 [m1] (.explicit true)
    ((GraphModel.empty.add_node m1 [] .auto).1.add_node m2 [m1]
      (.explicit true)).1 rfl

/-- C3 (counterexample): an `add_node` call whose inputs contain an
unregistered predictor does not always fail with the unknown-input error:
the duplicate check runs first, so when the predictor itself is already
registered, the call fails with the duplicate-predictor error even though
an input is unknown. -/
theorem unknown_input_shadowed_by_duplicate :
    alistGet p9.pid g3.nodes = none ∧
    g3.add_node m1 [p9] .auto = (g3, some (.duplicateNode m1)) ∧
    (g3.add_node m1 [p9] .auto).2 ≠ some (.unknownInput p9) := by
  refine ⟨rfl, ?_, ?_⟩ <;> decide

/-- C3 (amended): for every graph and every `add_node` call whose predictor
is not already registered and whose inputs contain an unregistered
predictor, the call fails with the unknown-input error naming an offending
input, and the registry is exactly as it was before the call (no partial
insertion). -/
theorem add_node_unknown_input (g : GraphModel) (p : Predictor)
    (inputs : List Predictor) (ad : AcceptsData)
    (hp : alistGet p.pid g.nodes = none)
    (hex : ∃ i ∈ inputs, alistGet i.pid g.nodes = none) :
    ∃ i ∈ inputs, alistGet i.pid g.nodes = none ∧
      g.add_node p inputs ad = (g, some (.unknownInput i)) := by
  have hfind : (inputs.find?
      (fun i => (alistGet i.pid g.nodes).isNone)).isSome = true := by
    rw [List.find?_isSome]
    obtain ⟨i, hi, hnone⟩ := hex
    exact ⟨i, hi, by simp [hnone]⟩
  obtain ⟨i, hfi⟩ := Option.isSome_iff_exists.mp hfind
  refine ⟨i, List.mem_of_find?_eq_some hfi, ?_, ?_⟩
  · have hpi := List.find?_some hfi
    simpa using hpi
  · unfold GraphModel.add_node
    simp [hp, hfi]

/-- Witness for the amended C3 at a concrete input: adding a fresh
predictor to the scenario graph with the unregistered input `p9` fails with
the unknown-input error naming `p9` and returns the registry unchanged. -/
theorem add_node_unknown_input_witness :
    ∃ i ∈ [p9], alistGet i.pid g3.nodes = none ∧
      g3.add_node ⟨7, "w"⟩ [p9] .auto = (g3, some (.unknownInput i)) :=
  add_node_unknown_input g3 ⟨7, "w"⟩ [p9] .auto rfl
    ⟨p9, by simp, rfl⟩

/- Helper lemmas on the `predict` traversal. -/

theorem inputLoop_ok (X : RawData) (cache : List (Nat × Value)) :
    ∀ (inputs : List Predictor) (s : Selection) (deps : List Value),
      (∀ i ∈ inputs, (alistGet i.pid cache).isSome = true) →
      inputLoop X cache (some s) deps inputs =
        .ok (some (inputs.foldl
              (fun acc i => Selection.outputs acc X i.identifier) s),
          deps ++ inputs.filterMap (fun i => alistGet i.pid cache)) := by
  intro inputs
  induction inputs with
  | nil => intro s deps _; simp [inputLoop]
  | cons i rest ih =>
      intro s deps hall
      have hi : (alistGet i.pid cache).isSome = true := hall i (by simp)
      obtain ⟨v, hv⟩ := Option.isSome_iff_exists.mp hi
      simp only [inputLoop, hv]
      rw [ih (Selection.outputs s X i.identifier) (deps ++ [v])
        (fun j hj => hall j (by simp [hj]))]
      simp [hv, List.filterMap_cons]

theorem predictLoop_pids (env : Env) (X : RawData) (db : Option Nat)
    (select : Option Selection) (ids : Option (List String)) (mcs : Option Nat)
    (deps : List Value) (kw : Nat) :
    ∀ (nodes : List Node) (cache : List (Nat × Value)) (last : Option Value),
      (predictLoop env X db select ids mcs deps kw cache last nodes).1.map
          CallRecord.pid
        = (nodes.map (fun n => n.predictor.pid)).take
            (predictLoop env X db select ids mcs deps kw cache last
              nodes).1.length := by
  intro nodes
  induction nodes with
  | nil => intro cache last; simp [predictLoop]
  | cons node rest ih =>
      intro cache last
      simp only [predictLoop]
      split
      · simp
      · split
        · simp
        · simp only [List.map_cons, List.length_cons, List.take_succ_cons,
            List.map]
          rw [ih]

theorem topoOrderedAux_append :
    ∀ (ns : List (Nat × Node)) (seen : List Nat) (pid : Nat) (nd : Node),
      topoOrderedAux seen ns = true →
      (∀ i ∈ nd.inputs, i.pid ∈ seen ++ ns.map Prod.fst) →
      topoOrderedAux seen (ns ++ [(pid, nd)]) = true := by
  intro ns
  induction ns with
  | nil =>
      intro seen pid nd _ h2
      simp only [List.nil_append, topoOrderedAux, Bool.and_eq_true,
        List.all_eq_true, decide_eq_true_eq]
      refine ⟨?_, trivial⟩
      intro i hi
      simpa using h2 i hi
  | cons kv rest ih =>
      intro seen pid nd h1 h2
      obtain ⟨k, n⟩ := kv
      simp only [List.cons_append, topoOrderedAux, Bool.and_eq_true] at h1 ⊢
      refine ⟨h1.1, ih (seen ++ [k]) pid nd h1.2 ?_⟩
      intro i hi
      have hmem := h2 i hi
      simp only [List.map_cons, List.mem_append, List.mem_cons] at hmem
      simp only [List.mem_append, List.mem_singleton]
      tauto

theorem inputLoop_error (X : RawData) (cache : List (Nat × Value)) :
    ∀ (inputs : List Predictor) (sel : Option Selection) (deps : List Value)
      (e : RErr), inputLoop X cache sel deps inputs = .error e →
      e = .noneTypeError ∨ e = .keyError := by
  intro inputs
  induction inputs with
  | nil => intro sel deps e h; simp [inputLoop] at h
  | cons i rest ih =>
      intro sel deps e h
      simp only [inputLoop] at h
      cases sel with
      | none =>
          simp only [Except.error.injEq] at h
          exact Or.inl h.symm
      | some s =>
          cases hc : alistGet i.pid cache with
          | none =>
              rw [hc] at h
              simp only [Except.error.injEq] at h
              exact Or.inr h.symm
          | some v =>
              rw [hc] at h
              exact ih _ _ _ h

theorem predictLoop_predictorError (env : Env) (X : RawData) (db : Option Nat)
    (select : Option Selection) (ids : Option (List String)) (mcs : Option Nat)
    (deps : List Value) (kw : Nat) :
    ∀ (nodes : List Node) (cache : List (Nat × Value)) (last : Option Value)
      (tr : List CallRecord) (e : Nat),
      predictLoop env X db select ids mcs deps kw cache last nodes
        = (tr, .error (.predictorError e)) →
      ∃ r, tr.getLast? = some r ∧ env r = .error e := by
  intro nodes
  induction nodes with
  | nil =>
      intro cache last tr e h
      simp only [predictLoop] at h
      cases last with
      | some v => simp at h
      | none => simp at h
  | cons node rest ih =>
      intro cache last tr e h
      simp only [predictLoop] at h
      split at h
      next e' hIL =>
        have he := inputLoop_error X cache _ _ _ _ hIL
        have h2 : (Except.error e' : Except RErr Value)
            = .error (.predictorError e) := congrArg Prod.snd h
        simp only [Except.error.injEq] at h2
        rcases he with he | he <;> rw [h2] at he <;> simp at he
      next nsel ndeps hIL =>
        split at h
        next e0 hEnv =>
          have htr : tr = [⟨node.predictor.pid, X, db, nsel, ids, mcs,
              ndeps, kw⟩] := (congrArg Prod.fst h).symm
          have h2 : (Except.error (RErr.predictorError e0) :
              Except RErr Value) = .error (.predictorError e) :=
            congrArg Prod.snd h
          simp only [Except.error.injEq, RErr.predictorError.injEq] at h2
          refine ⟨⟨node.predictor.pid, X, db, nsel, ids, mcs, ndeps, kw⟩,
            ?_, ?_⟩
          · rw [htr]; rfl
          · rw [← h2]; exact hEnv
        next out hEnv =>
          have h2 : (predictLoop env X db select ids mcs deps kw
              (alistSet node.predictor.pid out cache) (some out) rest).2
              = .error (.predictorError e) := congrArg Prod.snd h
          have heq : predictLoop env X db select ids mcs deps kw
              (alistSet node.predictor.pid out cache) (some out) rest
              = ((predictLoop env X db select ids mcs deps kw
                  (alistSet node.predictor.pid out cache) (some out) rest).1,
                 .error (.predictorError e)) := by
            rw [← h2]
          obtain ⟨r, hlast, henv⟩ := ih _ _ _ _ heq
          have htr : tr = ⟨node.predictor.pid, X, db, nsel, ids, mcs,
              ndeps, kw⟩ :: (predictLoop env X db select ids mcs deps kw
                (alistSet node.predictor.pid out cache) (some out) rest).1 :=
            (congrArg Prod.fst h).symm
          refine ⟨r, ?_, henv⟩
          rw [htr]
          cases htl : (predictLoop env X db select ids mcs deps kw
              (alistSet node.predictor.pid out cache) (some out) rest).1 with
          | nil => rw [htl] at hlast; simp at hlast
          | cons a t =>
              rw [htl] at hlast
              rw [List.getLast?_cons_cons]
              exact hlast

theorem none_select_aborts_loop (env : Env) (X : RawData) (db : Option Nat)
    (ids : Option (List String)) (mcs : Option Nat) (deps : List Value)
    (kw : Nat) :
    ∀ (pre : List Node) (n : Node) (post : List Node)
      (cache : List (Nat × Value)) (last : Option Value),
      (∀ m ∈ pre, m.inputs = []) →
      (∀ m ∈ pre, ∃ v, env ⟨m.predictor.pid, X, db, none, ids, mcs, deps, kw⟩
        = .ok v) →
      n.inputs ≠ [] →
      predictLoop env X db none ids mcs deps kw cache last (pre ++ n :: post)
        = (pre.map (fun m => ⟨m.predictor.pid, X, db, none, ids, mcs,
            deps, kw⟩), .error .noneTypeError) := by
  intro pre
  induction pre with
  | nil =>
      intro n post cache last _ _ hne
      cases hni : n.inputs with
      | nil => exact absurd hni hne
      | cons i is =>
          simp only [List.nil_append, predictLoop, ite_self, hni, inputLoop]
          rfl
  | cons m rest ih =>
      intro n post cache last hin hok hne
      have hm : m.inputs = [] := hin m (by simp)
      obtain ⟨v, hv⟩ := hok m (by simp)
      simp only [List.cons_append, predictLoop, ite_self, hm, inputLoop, hv,
        List.append_eq]
      rw [ih n post _ _ (fun x hx => hin x (by simp [hx]))
        (fun x hx => hok x (by simp [hx])) hne]
      rfl

/-- C2: `predict` invokes the registered predictors in insertion order (the
invoked pids are always a prefix of the registry's insertion order); on the
chain `A → B → C`, the predictors run in order A, B, C, `B`'s selection is
the base selection scoped to `A`'s output, `C`'s selection is the base
selection scoped to `B`'s output, and `C`'s dependency list contains `B`'s
returned handle; and for a node with several declared inputs, the scoping
steps are applied and the recorded upstream results appended to the
dependency list in input-declaration order. -/
theorem predict_insertion_order_and_chain :
    (∀ (g : GraphModel) (env : Env) (X : RawData) (db : Option Nat)
        (select : Option Selection) (ids : Option (List String))
        (mcs : Option Nat) (deps : List Value) (kw : Nat),
      (g.predict env X db select ids mcs deps kw).1.map CallRecord.pid
        = (g.nodes.map (fun kv => kv.2.predictor.pid)).take
            (g.predict env X db select ids mcs deps kw).1.length) ∧
    gABC.predict envABC 5 none (some (.base 9)) none none [] 0
      = ([⟨11, 5, none, some (.base 9), none, none, [], 0⟩,
          ⟨12, 5, none, some ((Selection.base 9).outputs 5 "A"), none, none,
            [201], 0⟩,
          ⟨13, 5, none, some ((Selection.base 9).outputs 5 "B"), none, none,
            [202], 0⟩],
         .ok 203) ∧
    (∀ (X : RawData) (cache : List (Nat × Value)) (inputs : List Predictor)
        (s : Selection) (deps : List Value),
      (∀ i ∈ inputs, (alistGet i.pid cache).isSome = true) →
      inputLoop X cache (some s) deps inputs =
        .ok (some (inputs.foldl
              (fun acc i => Selection.outputs acc X i.identifier) s),
          deps ++ inputs.filterMap (fun i => alistGet i.pid cache))) := by
  refine ⟨?_, rfl, ?_⟩
  · intro g env X db select ids mcs deps kw
    have h := predictLoop_pids env X db select ids mcs deps kw
      (g.nodes.map Prod.snd) [] none
    simpa [GraphModel.predict, List.map_map, Function.comp] using h
  · intro X cache inputs s deps h
    exact inputLoop_ok X cache inputs s deps h

/-- Witness for C2 at a concrete input: a node declaring the inputs
`[m1, m2]`, with their outputs `101` and `102` cached, gets its selection
scoped to `m1`'s then `m2`'s output and its dependency list extended with
`101` then `102`, in declaration order. -/
theorem predict_insertion_order_and_chain_witness :
    inputLoop 5 [(1, 101), (2, 102)] (some (.base 9)) [] [m1, m2]
      = .ok (some (((Selection.base 9).outputs 5 "m1").outputs 5 "m2"),
          [101, 102]) := by
  have h := predict_insertion_order_and_chain.2.2 5 [(1, 101), (2, 102)]
    [m1, m2] (.base 9) [] (by decide)
  simpa using h

/-- C7: invariant preserved by every `add_node` call: a successful call
only ever declares inputs already present in the registry (forward
references are rejected), and consequently in every graph reachable
through `add_node` the insertion order is a valid topological order in
which each node's declared inputs precede it. -/
theorem add_node_topological_invariant :
    (∀ (g : GraphModel) (p : Predictor) (inputs : List Predictor)
        (ad : AcceptsData), (g.add_node p inputs ad).2 = none →
        ∀ i ∈ inputs, i.pid ∈ g.nodes.map Prod.fst) ∧
    (∀ g : GraphModel, Reachable g → g.topoOrdered = true) := by
  have habs : ∀ (g : GraphModel) (p : Predictor) (inputs : List Predictor)
      (ad : AcceptsData), (g.add_node p inputs ad).2 = none →
      g.add_node p inputs ad = ((g.add_node p inputs ad).1, none) := by
    intro g p inputs ad h
    rw [← h]
  constructor
  · intro g p inputs ad h i hi
    obtain ⟨_, h2, _⟩ := add_node_ok g p inputs ad _ (habs g p inputs ad h)
    exact (alistGet_isSome_iff _ _).mp (h2 i hi)
  · intro g hg
    induction hg with
    | empty => rfl
    | step g p inputs ad _hr hok ih =>
        obtain ⟨_, h2, h3⟩ := add_node_ok g p inputs ad _
          (habs g p inputs ad hok)
        unfold GraphModel.topoOrdered at ih ⊢
        rw [h3]
        apply topoOrderedAux_append _ _ _ _ ih
        intro i hi
        simp only [List.nil_append]
        exact (alistGet_isSome_iff _ _).mp (h2 i hi)

/-- Witness for C7 at a concrete input: the three-node scenario graph,
reachable by three successful `add_node` calls, is in topological order. -/
theorem add_node_topological_invariant_witness :
    g3.topoOrdered = true :=
  add_node_topological_invariant.2 g3
    (Reachable.step _ _ _ _
      (Reachable.step _ _ _ _
        (Reachable.step _ _ _ _ Reachable.empty rfl) rfl) rfl)

/-- C8: if a predictor invocation raises during the traversal, the error
the caller of `predict` receives is the very error raised by that
predictor (not transformed or wrapped), the invoked nodes are exactly an
initial segment of the insertion order ending at the failing node — so no
node after it is invoked — and the per-call output cache, being local to
`predict` and absent from its result, is discarded with no compensating
action. -/
theorem predictor_error_aborts (g : GraphModel) (env : Env) (X : RawData)
    (db : Option Nat) (select : Option Selection) (ids : Option (List String))
    (mcs : Option Nat) (deps : List Value) (kw : Nat) (tr : List CallRecord)
    (e : Nat)
    (h : g.predict env X db select ids mcs deps kw
      = (tr, .error (.predictorError e))) :
    (∃ r, tr.getLast? = some r ∧ env r = .error e) ∧
    tr.map CallRecord.pid
      = (g.nodes.map (fun kv => kv.2.predictor.pid)).take tr.length ∧
    tr.length ≤ g.nodes.length := by
  have h1 := predictLoop_predictorError env X db select ids mcs deps kw
    (g.nodes.map Prod.snd) [] none tr e h
  have h2 := predictLoop_pids env X db select ids mcs deps kw
    (g.nodes.map Prod.snd) [] none
  have htr : (predictLoop env X db select ids mcs deps kw [] none
      (g.nodes.map Prod.snd)).1 = tr := congrArg Prod.fst h
  rw [htr] at h2
  have h2' : tr.map CallRecord.pid
      = (g.nodes.map (fun kv => kv.2.predictor.pid)).take tr.length := by
    simpa [List.map_map, Function.comp] using h2
  refine ⟨h1, h2', ?_⟩
  have hlen := congrArg List.length h2'
  simp only [List.length_map, List.length_take] at hlen
  omega

/-- Witness for C8 at a concrete input: on the graph `D → E` where `D`
succeeds and `E` raises the error `42`, `predict` stops after invoking `D`
and `E`, and the caller receives exactly the error `E` raised. -/
theorem predictor_error_aborts_witness :
    (∃ r, trDE.getLast? = some r ∧ envDE r = .error 42) ∧
    trDE.map CallRecord.pid
      = (gDE.nodes.map (fun kv => kv.2.predictor.pid)).take trDE.length ∧
    trDE.length ≤ gDE.nodes.length :=
  predictor_error_aborts gDE envDE 7 none (some (.base 0)) none none [] 0
    trDE 42 rfl

/-- C9: when the base selection passed to `predict` is `None` and some
registered node declares a non-empty inputs sequence, `predict` fails with
the attribute-access-on-`None` error the moment it tries to scope the
missing selection for the first such node, instead of executing that node:
the trace contains only the preceding input-free nodes' invocations.  There
is no guard for a missing base selection in the source. -/
theorem none_select_failure (g : GraphModel) (env : Env) (X : RawData)
    (db : Option Nat) (ids : Option (List String)) (mcs : Option Nat)
    (deps : List Value) (kw : Nat) (pre : List Node) (n : Node)
    (post : List Node)
    (hsplit : g.nodes.map Prod.snd = pre ++ n :: post)
    (hin : ∀ m ∈ pre, m.inputs = [])
    (hok : ∀ m ∈ pre, ∃ v,
      env ⟨m.predictor.pid, X, db, none, ids, mcs, deps, kw⟩ = .ok v)
    (hne : n.inputs ≠ []) :
    g.predict env X db none ids mcs deps kw
      = (pre.map (fun m => ⟨m.predictor.pid, X, db, none, ids, mcs,
          deps, kw⟩), .error .noneTypeError) := by
  unfold GraphModel.predict
  rw [hsplit]
  exact none_select_aborts_loop env X db ids mcs deps kw pre n post [] none
    hin hok hne

/-- Witness for C9 at a concrete input: on the graph `D → E` with no base
selection, `predict` invokes `D` (whose selection argument is `None`) and
then fails with the attribute-access-on-`None` error without ever invoking
`E`. -/
theorem none_select_failure_witness :
    gDE.predict envDE 7 none none none none [] 0
      = ([⟨31, 7, none, none, none, none, [], 0⟩],
         .error .noneTypeError) := by
  have h := none_select_failure gDE envDE 7 none none none [] 0
    [⟨pD, [], true⟩] ⟨pE, [pD], false⟩ [] rfl
    (by intro m hm; simp only [List.mem_singleton] at hm; subst hm; rfl)
    (by
      intro m hm
      simp only [List.mem_singleton] at hm
      subst hm
      exact ⟨301, rfl⟩)
    (by decide)
  exact h
